import Mathlib

/-!
Verification development for the GifToSteamWorkshop media pipeline
(steam_showcase_bot).  The Python sources in `steam_showcase_bot/`
are shallowly embedded below: pure byte manipulations become Lean
functions over `List Nat`, the ffmpeg scale filter becomes arithmetic
over `Nat`, and the stateful slicing / preparation / bot-notification
code becomes explicit functions over oracle environments that record
filesystem events and user notifications.
-/

namespace GifShowcase

/-- Python exception values raised by `ffmpeg_utils.py`, distinguished
the way the code distinguishes them (exception class plus message). -/
inductive PyError
  | runtimeMissingTool (tool : String)
  | runtimeMsg (msg : String)
  | valueError (msg : String)
  | calledProcessError
deriving DecidableEq

/-! ### `_fix_gif_terminator` (ffmpeg_utils.py lines 148-176)

The file's bytes are `List Nat`.  The Python function opens the file,
returns `False` when it is empty, reads the last byte, overwrites it in
place with `0x21` when it equals `0x3B` (returning `True`), and
otherwise leaves the file alone (returning `False`). -/

def fixGifTerminator (b : List Nat) : List Nat × Bool :=
  match b.getLast? with
  | none => (b, false)
  | some last => if last = 0x3B then (b.dropLast ++ [0x21], true) else (b, false)

/-! ### `resize_mp4_to_width_750` (ffmpeg_utils.py lines 18-56)

The ffmpeg invocation uses the filter
`scale='if(gt(iw,750),750,iw)':-2`: the output width is 750 when the
input is wider than 750 and the input width otherwise, and the output
height is derived from the aspect ratio and forced divisible by 2,
ffmpeg computing `av_rescale(ow, ih, iw * 2) * 2` with
round-to-nearest, halves away from zero. -/

/-- `av_rescale a c` with rounding AV_ROUND_NEAR_INF on naturals:
round-half-up of `a / c`. -/
def avRescale (a c : Nat) : Nat := (2 * a + c) / (2 * c)

/-- Output width of the scale filter `if(gt(iw,750),750,iw)`. -/
def scaleOutW (iw : Nat) : Nat := if 750 < iw then 750 else iw

/-- Output height of the scale filter with height parameter `-2`. -/
def scaleOutH (iw ih : Nat) : Nat := 2 * avRescale (scaleOutW iw * ih) (iw * 2)

/-- Bounds of round-half-up division: the rounded multiple stays within
half a divisor of the exact value. -/
lemma avRescale_mul_bounds (a iw : Nat) (hiw : 0 < iw) :
    avRescale a (iw * 2) * (2 * iw) ≤ a + iw ∧ a ≤ avRescale a (iw * 2) * (2 * iw) + iw := by
  unfold avRescale
  have h4 : 0 < 2 * (iw * 2) := by omega
  have hdm := Nat.div_add_mod (2 * a + iw * 2) (2 * (iw * 2))
  have hlt : (2 * a + iw * 2) % (2 * (iw * 2)) < 2 * (iw * 2) := Nat.mod_lt _ h4
  set q := (2 * a + iw * 2) / (2 * (iw * 2)) with hq
  set r := (2 * a + iw * 2) % (2 * (iw * 2)) with hr
  have hqiw : 2 * (iw * 2) * q = 4 * (q * iw) := by ring
  constructor <;> nlinarith [hdm, hlt]

lemma getLast_app_single {α : Type} (l : List α) (a : α) : (l ++ [a]).getLast? = some a :=
  List.getLast?_concat l

lemma fixGifTerminator_nil : fixGifTerminator [] = ([], false) := rfl

lemma fixGifTerminator_of_last_ne (b : List Nat) (v : Nat) (hb : b.getLast? = some v)
    (hv : v ≠ 0x3B) : fixGifTerminator b = (b, false) := by
  simp [fixGifTerminator, hb, hv]

lemma fixGifTerminator_of_last_eq (b : List Nat) (hb : b.getLast? = some 0x3B) :
    fixGifTerminator b = (b.dropLast ++ [0x21], true) := by
  simp [fixGifTerminator, hb]

lemma ne_nil_of_getLast (b : List Nat) (v : Nat) (hb : b.getLast? = some v) : b ≠ [] := by
  intro h
  subst h
  simp at hb

/-- C8: the terminator patch is idempotent: a second application of
`_fix_gif_terminator` leaves the bytes of the first application
unchanged and reports the file as unchanged, because after the first
application the last byte is never `0x3B`. -/
theorem c8_fix_gif_terminator_idempotent (b : List Nat) :
    fixGifTerminator (fixGifTerminator b).1 = ((fixGifTerminator b).1, false) := by
  cases hb : b.getLast? with
  | none =>
    have hnil : b = [] := by cases b <;> simp_all
    subst hnil
    rfl
  | some v =>
    by_cases h3 : v = 0x3B
    · subst h3
      rw [fixGifTerminator_of_last_eq b hb]
      exact fixGifTerminator_of_last_ne _ 0x21 (getLast_app_single _ _) (by decide)
    · rw [fixGifTerminator_of_last_ne b v hb h3]
      exact fixGifTerminator_of_last_ne b v hb h3

/-- C9: the terminator patch never changes the file's length, leaves
every byte but the last unchanged, overwrites the final byte with
`0x21` exactly when it equals `0x3B` (reporting a change), and on a
zero-length file is a no-op returning `false`. -/
theorem c9_fix_gif_terminator_layout (b : List Nat) :
    (fixGifTerminator b).1.length = b.length ∧
    fixGifTerminator ([] : List Nat) = ([], false) ∧
    (fixGifTerminator b).1.dropLast = b.dropLast ∧
    (b.getLast? = some 0x3B →
      (fixGifTerminator b).1.getLast? = some 0x21 ∧ (fixGifTerminator b).2 = true) ∧
    (∀ v, b.getLast? = some v → v ≠ 0x3B → fixGifTerminator b = (b, false)) := by
  refine ⟨?_, rfl, ?_, ?_, fun v hv h3 => fixGifTerminator_of_last_ne b v hv h3⟩
  · cases hb : b.getLast? with
    | none => simp [fixGifTerminator, hb]
    | some v =>
      by_cases h3 : v = 0x3B
      · subst h3
        rw [fixGifTerminator_of_last_eq b hb]
        have hne := ne_nil_of_getLast b _ hb
        have hlen : b.dropLast.length = b.length - 1 := List.length_dropLast b
        have hpos : 0 < b.length := List.length_pos.mpr hne
        simp [List.length_append, hlen]
        omega
      · rw [fixGifTerminator_of_last_ne b v hb h3]
  · cases hb : b.getLast? with
    | none => simp [fixGifTerminator, hb]
    | some v =>
      by_cases h3 : v = 0x3B
      · subst h3
        rw [fixGifTerminator_of_last_eq b hb]
        exact List.dropLast_concat
      · rw [fixGifTerminator_of_last_ne b v hb h3]
  · intro hb
    rw [fixGifTerminator_of_last_eq b hb]
    exact ⟨getLast_app_single _ _, rfl⟩

/-- C9 witness: on the concrete file `[0x47, 0x3B]` the patch rewrites
the final byte to `0x21` and keeps the length at 2. -/
theorem c9_fix_gif_terminator_layout_witness :
    (fixGifTerminator [0x47, 0x3B]).1.getLast? = some 0x21 ∧
    (fixGifTerminator [0x47, 0x3B]).1.length = 2 := by
  have h := c9_fix_gif_terminator_layout [0x47, 0x3B]
  exact ⟨(h.2.2.2.1 (by decide)).1, h.1.trans (by decide)⟩

/-- C5 counterexample: a 700×501 input is not wider than 750, yet the
scale filter changes its geometry — the `-2` height parameter rounds
the odd height 501 up to 502 — so `rescale` does not leave all
inputs of width ≤ 750 geometrically unchanged. -/
theorem c5_rescale_counterexample :
    scaleOutW 700 = 700 ∧ scaleOutH 700 501 = 502 ∧ (502 : Nat) ≠ 501 := by
  refine ⟨rfl, ?_, by decide⟩
  decide

/-- C5 (amended): for inputs wider than 750 the output width is
exactly 750, the output height is even and preserves the aspect ratio
within one unit (`|out_h·iw − 750·ih| ≤ iw`); for inputs of width
≤ 750 the width is unchanged and the height is unchanged when even but
rounded up to the next even integer when odd. -/
theorem c5_rescale_geometry (iw ih : Nat) (hiw : 0 < iw) :
    (750 < iw → scaleOutW iw = 750 ∧ scaleOutH iw ih % 2 = 0 ∧
      scaleOutH iw ih * iw ≤ 750 * ih + iw ∧ 750 * ih ≤ scaleOutH iw ih * iw + iw) ∧
    (iw ≤ 750 → scaleOutW iw = iw ∧
      (ih % 2 = 0 → scaleOutH iw ih = ih) ∧ (ih % 2 = 1 → scaleOutH iw ih = ih + 1)) := by
  constructor
  · intro hgt
    have hw : scaleOutW iw = 750 := by simp [scaleOutW, hgt]
    have hb := avRescale_mul_bounds (750 * ih) iw hiw
    have hh : scaleOutH iw ih = 2 * avRescale (750 * ih) (iw * 2) := by
      rw [scaleOutH, hw]
    refine ⟨hw, ?_, ?_, ?_⟩
    · rw [hh]; omega
    · rw [hh]
      calc 2 * avRescale (750 * ih) (iw * 2) * iw
          = avRescale (750 * ih) (iw * 2) * (2 * iw) := by ring
        _ ≤ 750 * ih + iw := hb.1
    · have : avRescale (750 * ih) (iw * 2) * (2 * iw) ≤ 2 * avRescale (750 * ih) (iw * 2) * iw := by
        ring_nf
        omega
      have hb2 := hb.2
      rw [hh]
      omega
  · intro hle
    have hw : scaleOutW iw = iw := by simp [scaleOutW]; omega
    have hh : scaleOutH iw ih = 2 * ((ih + 1) / 2) := by
      rw [scaleOutH, hw]
      unfold avRescale
      have hnum : 2 * (iw * ih) + iw * 2 = (2 * iw) * (ih + 1) := by ring
      have hden : 2 * (iw * 2) = (2 * iw) * 2 := by ring
      rw [hnum, hden, Nat.mul_div_mul_left _ _ (by omega)]
    refine ⟨hw, ?_, ?_⟩ <;> intro hpar <;> rw [hh] <;> omega

/-- C5 witness: a 900×600 input rescales to width 750 with an even
height whose aspect error is within one unit. -/
theorem c5_rescale_geometry_witness :
    scaleOutW 900 = 750 ∧ scaleOutH 900 600 % 2 = 0 ∧
    scaleOutH 900 600 * 900 ≤ 750 * 600 + 900 ∧
    750 * 600 ≤ scaleOutH 900 600 * 900 + 900 :=
  (c5_rescale_geometry 900 600 (by decide)).1 (by decide)

/-! ### `slice_video_inplace_with_gifs` (ffmpeg_utils.py lines 179-243)

The function probes the input, rejects widths other than 750 with a
`ValueError` naming the width, crops five 150-wide bands (band 0 to a
temp path, bands 1..4 to `_part{i+1}` siblings), replaces the input
with the temp first band, creates a `<stem>_gifs` directory and five
GIFs in it, then archives the directory to `<stem>_gifs.zip`; on
archive success it best-effort removes the GIF directory and returns
the archive path, and on archive failure it logs, leaves the GIF
directory in place and returns `None`.  External-tool outcomes are
oracles in `SliceEnv`; the filesystem effects are recorded as a list
of `FsEvent`s in program order. -/

/-- Parameters of one ffmpeg `crop=w:h:x:y` filter. -/
structure CropSpec where
  w : Nat
  h : Nat
  x : Nat
  y : Nat
deriving DecidableEq

def partW : Nat := 150

/-- The crop filter of band `i`: `crop=150:h:(i*150):0`. -/
def cropFilter (h i : Nat) : CropSpec := ⟨partW, h, i * partW, 0⟩

/-- The five crop filters of one slice run, in band order. -/
def sliceCrops (h : Nat) : List CropSpec := (List.range 5).map (cropFilter h)

/-- Filesystem effects of the slicing code, in program order. -/
inductive FsEvent
  | encodeCrop (path : String) (spec : CropSpec)
  | createFile (path : String)
  | replaceFile (src dst : String)
  | makeDir (path : String)
  | removeTree (path : String)
deriving DecidableEq

/-- Output path of band `i`: the temp first-part path for `i = 0`,
`<stem>_part{i+1}<sfx>` otherwise. -/
def partPath (stem sfx : String) (i : Nat) : String :=
  if i = 0 then stem ++ "__tmp_part1" ++ sfx
  else stem ++ "_part" ++ toString (i + 1) ++ sfx

/-- Oracle outcomes of the external calls made by one slice run. -/
structure SliceEnv where
  probe : Except PyError (Nat × Nat)
  cropOk : Nat → Bool
  gifOk : Nat → Bool
  archiveOk : Bool
  rmtreeOk : Bool

/-- The band-cropping loop: each successful ffmpeg call creates the
band file; the first failing call aborts the loop (the exception
propagates). -/
def cropLoop (stem sfx : String) (h : Nat) (ok : Nat → Bool) : List Nat → List FsEvent × Bool
  | [] => ([], true)
  | i :: rest =>
    if ok i then
      let next := cropLoop stem sfx h ok rest
      (FsEvent.encodeCrop (partPath stem sfx i) (cropFilter h i) :: next.1, next.2)
    else ([], false)

/-- The GIF-rendering loop over `part1.gif .. part5.gif`. -/
def gifLoop (gifDir : String) (ok : Nat → Bool) : List Nat → List FsEvent × Bool
  | [] => ([], true)
  | i :: rest =>
    if ok i then
      let next := gifLoop gifDir ok rest
      (FsEvent.createFile (gifDir ++ "/part" ++ toString i ++ ".gif") :: next.1, next.2)
    else ([], false)

/-- The `ValueError` message for a wrong probed width. -/
def geometryMsg (w : Nat) : String :=
  "Ожидалась ширина 750px, получено " ++ toString w ++ "px"

/-- Shallow embedding of `slice_video_inplace_with_gifs`: returns the
filesystem events and either a raised exception or the function's
return value (`some archive` / `none`). -/
def sliceVideoInplaceWithGifs (stem sfx : String) (env : SliceEnv) :
    List FsEvent × Except PyError (Option String) :=
  match env.probe with
  | .error e => ([], .error e)
  | .ok (w, h) =>
    if w ≠ 750 then ([], .error (.valueError (geometryMsg w)))
    else
      let crops := cropLoop stem sfx h env.cropOk [0, 1, 2, 3, 4]
      if crops.2 = false then (crops.1, .error .calledProcessError)
      else
        let p := stem ++ sfx
        let gifDir := stem ++ "_gifs"
        let evs1 := crops.1 ++ [FsEvent.replaceFile (partPath stem sfx 0) p, FsEvent.makeDir gifDir]
        let gifs := gifLoop gifDir env.gifOk [1, 2, 3, 4, 5]
        if gifs.2 = false then (evs1 ++ gifs.1, .error .calledProcessError)
        else
          let evs2 := evs1 ++ gifs.1
          if env.archiveOk then
            let archivePath := stem ++ "_gifs.zip"
            let evs3 := evs2 ++ [FsEvent.createFile archivePath]
            if env.rmtreeOk then (evs3 ++ [FsEvent.removeTree gifDir], .ok (some archivePath))
            else (evs3, .ok (some archivePath))
          else (evs2, .ok none)

/-- The crop specs carried by a list of events, in order. -/
def cropEvents : List FsEvent → List CropSpec
  | [] => []
  | FsEvent.encodeCrop _ s :: rest => s :: cropEvents rest
  | _ :: rest => cropEvents rest

lemma cropEvents_append (xs ys : List FsEvent) :
    cropEvents (xs ++ ys) = cropEvents xs ++ cropEvents ys := by
  induction xs with
  | nil => rfl
  | cons e rest ih => cases e <;> simp [cropEvents, ih]

lemma cropEvents_gifLoop (d : String) (ok : Nat → Bool) (l : List Nat) :
    cropEvents (gifLoop d ok l).1 = [] := by
  induction l with
  | nil => rfl
  | cons i rest ih =>
    cases h : ok i
    · simp [gifLoop, h, cropEvents]
    · simp [gifLoop, h, cropEvents, ih]

/-- Path targeted by a filesystem event (destination for a replace). -/
def eventPath : FsEvent → String
  | .encodeCrop p _ => p
  | .createFile p => p
  | .replaceFile _ d => d
  | .makeDir p => p
  | .removeTree p => p

lemma string_append_assoc (a b c : String) : (a ++ b) ++ c = a ++ (b ++ c) := by
  apply String.ext
  simp [String.data_append, List.append_assoc]

lemma partPath_stem_append (stem sfx : String) (i : Nat) :
    ∃ r, partPath stem sfx i = stem ++ r := by
  unfold partPath
  by_cases h0 : i = 0
  · exact ⟨"__tmp_part1" ++ sfx, by simp [h0, string_append_assoc]⟩
  · exact ⟨"_part" ++ toString (i + 1) ++ sfx, by
      simp [h0, string_append_assoc]⟩

lemma gifLoop_createFile_mem (d : String) (ok : Nat → Bool) (l : List Nat) (q : String)
    (hq : FsEvent.createFile q ∈ (gifLoop d ok l).1) :
    ∃ i ∈ l, q = d ++ "/part" ++ toString i ++ ".gif" := by
  induction l with
  | nil => simp [gifLoop] at hq
  | cons j rest ih =>
    cases hj : ok j
    · simp [gifLoop, hj] at hq
    · simp only [gifLoop, hj, if_true, eq_self_iff_true, List.mem_cons,
        FsEvent.createFile.injEq] at hq
      rcases hq with he | hm
      · exact ⟨j, List.mem_cons_self j rest, he⟩
      · rcases ih hm with ⟨i, hmem, hEq⟩
        exact ⟨i, List.mem_cons_of_mem j hmem, hEq⟩

lemma gifLoop_paths_d (d : String) (ok : Nat → Bool) (l : List Nat) :
    ∀ ev ∈ (gifLoop d ok l).1, ∃ r, eventPath ev = d ++ r := by
  induction l with
  | nil => simp [gifLoop]
  | cons j rest ih =>
    cases hj : ok j
    · simp [gifLoop, hj]
    · intro ev hev
      simp only [gifLoop, hj, if_true, eq_self_iff_true, List.mem_cons] at hev
      rcases hev with he | hm
      · subst he
        exact ⟨"/part" ++ toString j ++ ".gif", by simp [eventPath, string_append_assoc]⟩
      · exact ih ev hm

lemma zip_ne_gif_path (stem : String) (i : Nat) (hi : (toString i).length = 1) :
    stem ++ "_gifs.zip" ≠ stem ++ "_gifs" ++ "/part" ++ toString i ++ ".gif" := by
  intro hcontra
  have hlen := congrArg String.length hcontra
  have h9 : ("_gifs.zip" : String).length = 9 := rfl
  have h5a : ("_gifs" : String).length = 5 := rfl
  have h5b : ("/part" : String).length = 5 := rfl
  have h4 : (".gif" : String).length = 4 := rfl
  simp [String.length_append] at hlen
  omega

lemma cropLoop_no_createFile (stem sfx : String) (h : Nat) (ok : Nat → Bool)
    (l : List Nat) (q : String) : FsEvent.createFile q ∉ (cropLoop stem sfx h ok l).1 := by
  induction l with
  | nil => simp [cropLoop]
  | cons j rest ih =>
    cases hj : ok j
    · simp [cropLoop, hj]
    · simp [cropLoop, hj, ih]

lemma cropLoop_paths_stem (stem sfx : String) (h : Nat) (ok : Nat → Bool) (l : List Nat) :
    ∀ ev ∈ (cropLoop stem sfx h ok l).1, ∃ r, eventPath ev = stem ++ r := by
  induction l with
  | nil => simp [cropLoop]
  | cons j rest ih =>
    cases hj : ok j
    · simp [cropLoop, hj]
    · intro ev hev
      rw [cropLoop] at hev
      simp only [hj, if_true] at hev
      rcases List.mem_cons.mp hev with he | hm
      · subst he; simpa [eventPath] using partPath_stem_append stem sfx j
      · exact ih ev hm

/-- C3: when the probe reports a width other than 750, the slice
function raises a `ValueError` naming the actual width and performs no
filesystem effect at all — no band file, temp file, GIF or directory
is created before the failure. -/
theorem c3_slice_wrong_width (stem sfx : String) (env : SliceEnv) (w h : Nat)
    (hp : env.probe = Except.ok (w, h)) (hw : w ≠ 750) :
    sliceVideoInplaceWithGifs stem sfx env =
      ([], Except.error (PyError.valueError (geometryMsg w))) := by
  simp [sliceVideoInplaceWithGifs, hp, hw]

/-- C3 witness: a 600-wide input fails with the `ValueError` naming
600 and creates nothing. -/
theorem c3_slice_wrong_width_witness :
    sliceVideoInplaceWithGifs "clip" ".mp4"
        ⟨Except.ok (600, 400), fun _ => true, fun _ => true, true, true⟩ =
      ([], Except.error (PyError.valueError (geometryMsg 600))) :=
  c3_slice_wrong_width "clip" ".mp4" _ 600 400 rfl (by decide)

lemma sliceRun_cropEvents (stem sfx : String) (env : SliceEnv) (h : Nat)
    (hp : env.probe = Except.ok (750, h)) (hc : ∀ i, i < 5 → env.cropOk i = true) :
    cropEvents (sliceVideoInplaceWithGifs stem sfx env).1 = sliceCrops h := by
  have h0 := hc 0 (by norm_num)
  have h1 := hc 1 (by norm_num)
  have h2 := hc 2 (by norm_num)
  have h3 := hc 3 (by norm_num)
  have h4 := hc 4 (by norm_num)
  have hcrops : cropLoop stem sfx h env.cropOk [0, 1, 2, 3, 4] =
      ([FsEvent.encodeCrop (partPath stem sfx 0) (cropFilter h 0),
        FsEvent.encodeCrop (partPath stem sfx 1) (cropFilter h 1),
        FsEvent.encodeCrop (partPath stem sfx 2) (cropFilter h 2),
        FsEvent.encodeCrop (partPath stem sfx 3) (cropFilter h 3),
        FsEvent.encodeCrop (partPath stem sfx 4) (cropFilter h 4)], true) := by
    simp [cropLoop, h0, h1, h2, h3, h4]
  simp only [sliceVideoInplaceWithGifs, hp]
  rw [if_neg (by simp)]
  rw [hcrops]
  split
  · simp_all
  · split
    · simp [cropEvents_append, cropEvents_gifLoop, cropEvents, sliceCrops]
      rfl
    · split
      · split <;>
          simp [cropEvents_append, cropEvents_gifLoop, cropEvents, sliceCrops] <;> rfl
      · simp [cropEvents_append, cropEvents_gifLoop, cropEvents, sliceCrops]
        rfl

/-- C4: a successful slice run on a 750-wide input crops exactly the
five bands of `sliceCrops h`: each band has width 150 and vertical
offset 0, band `i` starts at horizontal offset `i·150`, the widths sum
to 750, and the half-open bands `[i·150, i·150+150)` are pairwise
disjoint and cover `[0, 750)` exactly. -/
theorem c4_slice_bands (stem sfx : String) (env : SliceEnv) (h : Nat)
    (hp : env.probe = Except.ok (750, h)) (hc : ∀ i, i < 5 → env.cropOk i = true) :
    cropEvents (sliceVideoInplaceWithGifs stem sfx env).1 = sliceCrops h ∧
    sliceCrops h = [⟨150, h, 0, 0⟩, ⟨150, h, 150, 0⟩, ⟨150, h, 300, 0⟩,
      ⟨150, h, 450, 0⟩, ⟨150, h, 600, 0⟩] ∧
    ((sliceCrops h).map CropSpec.w).sum = 750 ∧
    (∀ off, off < 750 ↔ ∃ i, i < 5 ∧ i * 150 ≤ off ∧ off < i * 150 + 150) ∧
    (∀ i j off, i < 5 → j < 5 → i ≠ j →
      ¬(i * 150 ≤ off ∧ off < i * 150 + 150 ∧ j * 150 ≤ off ∧ off < j * 150 + 150)) := by
  have hsum : ((sliceCrops h).map CropSpec.w).sum = 750 := by
    have he : sliceCrops h = [⟨150, h, 0, 0⟩, ⟨150, h, 150, 0⟩, ⟨150, h, 300, 0⟩,
        ⟨150, h, 450, 0⟩, ⟨150, h, 600, 0⟩] := rfl
    rw [he]
    simp
  refine ⟨sliceRun_cropEvents stem sfx env h hp hc, rfl, hsum, ?_, ?_⟩
  · intro off
    constructor
    · intro hoff
      exact ⟨off / 150, by omega, by omega, by omega⟩
    · rintro ⟨i, hi, hlo, hhi⟩
      omega
  · rintro i j off hi hj hne ⟨hilo, hihi, hjlo, hjhi⟩
    omega

/-- C4 witness: on a concrete successful 750-wide run the recorded
crops are the five canonical bands and their widths sum to 750. -/
theorem c4_slice_bands_witness :
    cropEvents (sliceVideoInplaceWithGifs "clip" ".mp4"
        ⟨Except.ok (750, 600), fun _ => true, fun _ => true, true, true⟩).1 =
      sliceCrops 600 ∧
    ((sliceCrops 600).map CropSpec.w).sum = 750 := by
  have h := c4_slice_bands "clip" ".mp4"
      ⟨Except.ok (750, 600), fun _ => true, fun _ => true, true, true⟩ 600 rfl
      (fun i _ => rfl)
  exact ⟨h.1, h.2.2.1⟩

/-- C1 counterexample: on a run where archive creation fails, the
function does not propagate any error — it returns `None`
(`Except.ok none`) — and the GIF directory is indeed not removed, so
the propagation half of the claim is false on the code. -/
theorem c1_archive_failure_counterexample :
    (sliceVideoInplaceWithGifs "video" ".mp4"
        ⟨Except.ok (750, 600), fun _ => true, fun _ => true, false, true⟩).2 =
      Except.ok none ∧
    FsEvent.removeTree "video_gifs" ∉
      (sliceVideoInplaceWithGifs "video" ".mp4"
        ⟨Except.ok (750, 600), fun _ => true, fun _ => true, false, true⟩).1 := by
  exact ⟨rfl, by decide⟩

/-- C1 (amended): when archive creation fails after a successful slice
and GIF render, `slice_video_inplace_with_gifs` swallows the archiver
error and returns `None` to its caller, and removes nothing — the GIF
source directory and its contents are left untouched. -/
theorem c1_archive_failure_returns_none (stem sfx : String) (env : SliceEnv) (h : Nat)
    (hp : env.probe = Except.ok (750, h))
    (hc : ∀ i, i < 5 → env.cropOk i = true)
    (hg : ∀ i, env.gifOk i = true)
    (ha : env.archiveOk = false) :
    (sliceVideoInplaceWithGifs stem sfx env).2 = Except.ok none ∧
    ∀ q, FsEvent.removeTree q ∉ (sliceVideoInplaceWithGifs stem sfx env).1 := by
  have h0 := hc 0 (by norm_num)
  have h1 := hc 1 (by norm_num)
  have h2 := hc 2 (by norm_num)
  have h3 := hc 3 (by norm_num)
  have h4 := hc 4 (by norm_num)
  constructor
  · simp [sliceVideoInplaceWithGifs, hp, cropLoop, gifLoop, h0, h1, h2, h3, h4, hg, ha]
  · intro q
    simp [sliceVideoInplaceWithGifs, hp, cropLoop, gifLoop, h0, h1, h2, h3, h4, hg, ha]

/-- C1 witness: a concrete archive-failure run returns `None` and does
not remove the GIF directory. -/
theorem c1_archive_failure_returns_none_witness :
    (sliceVideoInplaceWithGifs "w" ".mp4"
        ⟨Except.ok (750, 400), fun _ => true, fun _ => true, false, true⟩).2 =
      Except.ok none ∧
    FsEvent.removeTree "w_gifs" ∉
      (sliceVideoInplaceWithGifs "w" ".mp4"
        ⟨Except.ok (750, 400), fun _ => true, fun _ => true, false, true⟩).1 := by
  have h := c1_archive_failure_returns_none "w" ".mp4"
      ⟨Except.ok (750, 400), fun _ => true, fun _ => true, false, true⟩ 400 rfl
      (fun i _ => rfl) (fun i => rfl) rfl
  exact ⟨h.1, h.2 "w_gifs"⟩

/-! ### Slicing-failure cleanup in `bot.py` (lines 250-291)

On a slicing exception the bot attempts, each inside its own
`try`/`except` block: unlinking the sliced working copy, removing
every entry of `sliced_gifs` matching the glob `<stem>*` (directories
recursively), unlinking the prepared copy, and unlinking the original
download.  `CleanupEnv` gives each deletion's success; the function
returns the attempts in program order. -/

structure CleanupEnv where
  slisedOk : Bool
  artifactOk : Nat → Bool
  preparedOk : Bool
  srcOk : Bool

/-- One attempted deletion and whether it succeeded. -/
structure CleanAttempt where
  target : String
  ok : Bool
deriving DecidableEq

def sliceFailureCleanup (slisedCopy : String) (globMatches : List String)
    (prepared src : String) (env : CleanupEnv) : List CleanAttempt :=
  ⟨slisedCopy, env.slisedOk⟩ ::
    (globMatches.enum.map fun pr => ⟨pr.2, env.artifactOk pr.1⟩) ++
    [⟨prepared, env.preparedOk⟩, ⟨src, env.srcOk⟩]

/-- C6: for every run on which `slice_video_inplace_with_gifs` raises
— a band-encode failure or a GIF-render failure alike — the cleanup
attempts to delete the sliced working copy, every glob-matched
artifact, the prepared copy and the original source, in that order,
whatever the outcome of each individual deletion (no failure shortens
the attempt list and none escalates); no archive file is ever created
on such a run; and every artifact the failed run did create (bands,
the GIF directory, partial GIFs) lives under the sliced copy's stem,
so the `<stem>*` glob covers it. -/
theorem c6_slice_failure_cleanup (sc prep src stem sfx : String) (glob : List String)
    (cenv : CleanupEnv) (senv : SliceEnv) (e : PyError)
    (he : (sliceVideoInplaceWithGifs stem sfx senv).2 = Except.error e) :
    ((sliceFailureCleanup sc glob prep src cenv).map CleanAttempt.target
        = sc :: (glob ++ [prep, src])) ∧
    FsEvent.createFile (stem ++ "_gifs.zip") ∉
      (sliceVideoInplaceWithGifs stem sfx senv).1 ∧
    (∀ ev ∈ (sliceVideoInplaceWithGifs stem sfx senv).1, ∃ r, eventPath ev = stem ++ r) := by
  have hcleanup : (sliceFailureCleanup sc glob prep src cenv).map CleanAttempt.target
      = sc :: (glob ++ [prep, src]) := by
    simp [sliceFailureCleanup, List.map_map]
    have : (CleanAttempt.target ∘ fun pr : Nat × String => CleanAttempt.mk pr.2 (cenv.artifactOk pr.1))
        = Prod.snd := by
      funext pr
      rfl
    rw [this, List.enum_map_snd]
  have hmain : FsEvent.createFile (stem ++ "_gifs.zip") ∉
      (sliceVideoInplaceWithGifs stem sfx senv).1 ∧
      (∀ ev ∈ (sliceVideoInplaceWithGifs stem sfx senv).1, ∃ r, eventPath ev = stem ++ r) := by
    cases hp : senv.probe with
    | error e0 => simp [sliceVideoInplaceWithGifs, hp]
    | ok wh =>
      obtain ⟨w, h⟩ := wh
      by_cases hw : w = 750
      · subst hw
        cases hcrop : (cropLoop stem sfx h senv.cropOk [0, 1, 2, 3, 4]).2
        · have hrun : sliceVideoInplaceWithGifs stem sfx senv =
              ((cropLoop stem sfx h senv.cropOk [0, 1, 2, 3, 4]).1,
                Except.error PyError.calledProcessError) := by
            simp [sliceVideoInplaceWithGifs, hp, hcrop]
          rw [hrun]
          exact ⟨cropLoop_no_createFile stem sfx h senv.cropOk [0, 1, 2, 3, 4] _,
            cropLoop_paths_stem stem sfx h senv.cropOk [0, 1, 2, 3, 4]⟩
        · cases hgif : (gifLoop (stem ++ "_gifs") senv.gifOk [1, 2, 3, 4, 5]).2
          · have hrun : sliceVideoInplaceWithGifs stem sfx senv =
                ((cropLoop stem sfx h senv.cropOk [0, 1, 2, 3, 4]).1 ++
                  [FsEvent.replaceFile (partPath stem sfx 0) (stem ++ sfx),
                   FsEvent.makeDir (stem ++ "_gifs")] ++
                  (gifLoop (stem ++ "_gifs") senv.gifOk [1, 2, 3, 4, 5]).1,
                 Except.error PyError.calledProcessError) := by
              simp [sliceVideoInplaceWithGifs, hp, hcrop, hgif]
            rw [hrun]
            constructor
            · intro hmem
              rcases List.mem_append.mp hmem with h1 | h2
              · rcases List.mem_append.mp h1 with ha | hb
                · exact cropLoop_no_createFile stem sfx h senv.cropOk [0, 1, 2, 3, 4] _ ha
                · simp at hb
              · rcases gifLoop_createFile_mem _ _ _ _ h2 with ⟨i, hiMem, hEq⟩
                have hlen1 : (toString i).length = 1 := by
                  have : i = 1 ∨ i = 2 ∨ i = 3 ∨ i = 4 ∨ i = 5 := by
                    simpa using hiMem
                  rcases this with h1 | h2 | h3 | h4 | h5 <;> subst_vars <;> rfl
                exact zip_ne_gif_path stem i hlen1 hEq
            · intro ev hev
              rcases List.mem_append.mp hev with h1 | h2
              · rcases List.mem_append.mp h1 with ha | hb
                · exact cropLoop_paths_stem stem sfx h senv.cropOk [0, 1, 2, 3, 4] ev ha
                · rcases List.mem_cons.mp hb with hb1 | hb2
                  · subst hb1
                    exact ⟨sfx, rfl⟩
                  · rcases List.mem_cons.mp hb2 with hb3 | hb4
                    · subst hb3
                      exact ⟨"_gifs", rfl⟩
                    · simp at hb4
              · rcases gifLoop_paths_d (stem ++ "_gifs") senv.gifOk [1, 2, 3, 4, 5] ev h2
                  with ⟨r, hr⟩
                exact ⟨"_gifs" ++ r, by rw [hr]; exact string_append_assoc stem "_gifs" r⟩
          · cases ha : senv.archiveOk
            · simp [sliceVideoInplaceWithGifs, hp, hcrop, hgif, ha] at he
            · cases hr : senv.rmtreeOk <;>
                simp [sliceVideoInplaceWithGifs, hp, hcrop, hgif, ha, hr] at he
      · simp [sliceVideoInplaceWithGifs, hp, hw]
  exact ⟨hcleanup, hmain.1, hmain.2⟩

/-- C6 witness: a concrete failed run — GIF render of part 3 fails
after two GIFs were already written — still has the cleanup attempt
all four deletion groups in order, and the archive zip was never
created. -/
theorem c6_slice_failure_cleanup_witness :
    ((sliceFailureCleanup "s.mp4" ["s_part2.mp4"] "p.mp4" "o.mp4"
        ⟨false, fun _ => true, true, true⟩).map CleanAttempt.target
      = "s.mp4" :: (["s_part2.mp4"] ++ ["p.mp4", "o.mp4"])) ∧
    FsEvent.createFile ("s" ++ "_gifs.zip") ∉
      (sliceVideoInplaceWithGifs "s" ".mp4"
        ⟨Except.ok (750, 600), fun _ => true, fun i => decide (i < 3), true, true⟩).1 := by
  have h := c6_slice_failure_cleanup "s.mp4" "p.mp4" "o.mp4" "s" ".mp4" ["s_part2.mp4"]
      ⟨false, fun _ => true, true, true⟩
      ⟨Except.ok (750, 600), fun _ => true, fun i => decide (i < 3), true, true⟩
      PyError.calledProcessError rfl
  exact ⟨h.1, h.2.1⟩

/-! ### `prepare_and_resize_copy` (ffmpeg_utils.py lines 59-92)

The function copies the source into `prepared_dir` under its original
name, returns the copy unchanged for non-`.mp4` suffixes, and for
`.mp4` runs `resize_mp4_to_width_750` into a sibling
`<stem>_750w<sfx>` temp file, replacing the copy with it only on
success; on failure it unlinks the temp file (best effort) and
re-raises.  The filesystem is a map from paths to byte lists; ffmpeg's
outcome and any partial temp output are oracles in `PrepEnv`. -/

/-- ASCII-style lowering of a string, as `str.lower()` behaves on the
file suffixes the code compares. -/
def lowerStr (s : String) : String := ⟨s.data.map Char.toLower⟩

abbrev FileMap := String → Option (List Nat)

def fsSet (fs : FileMap) (p : String) (v : List Nat) : FileMap :=
  fun q => if q = p then some v else fs q

def fsDel (fs : FileMap) (p : String) : FileMap :=
  fun q => if q = p then none else fs q

/-- Oracle outcomes for one `prepare_and_resize_copy` call: the bytes
produced by a successful encode, the partial temp output left behind
by a failed encode, and whether the best-effort temp unlink succeeds. -/
structure PrepEnv where
  resizeResult : Option (List Nat)
  tmpOnFailure : Option (List Nat)
  unlinkTmpOk : Bool

structure PrepOut where
  fs : FileMap
  resizeInvoked : Bool
  result : Except PyError String

def prepareAndResizeCopy (srcBytes : List Nat) (stem sfx preparedDir : String)
    (env : PrepEnv) (fs : FileMap) : PrepOut :=
  let dest := preparedDir ++ "/" ++ stem ++ sfx
  let fs1 := fsSet fs dest srcBytes
  if lowerStr sfx ≠ ".mp4" then ⟨fs1, false, .ok dest⟩
  else
    let tmpOut := preparedDir ++ "/" ++ stem ++ "_750w" ++ sfx
    match env.resizeResult with
    | some outBytes =>
      let fs2 := fsSet fs1 tmpOut outBytes
      let fs3 := fsDel (fsSet fs2 dest outBytes) tmpOut
      ⟨fs3, true, .ok dest⟩
    | none =>
      let fs2 := match env.tmpOnFailure with
        | some partialBytes => fsSet fs1 tmpOut partialBytes
        | none => fs1
      let fs3 := if env.unlinkTmpOk then fsDel fs2 tmpOut else fs2
      ⟨fs3, true, .error (.runtimeMsg "ffmpeg error")⟩

lemma prep_dest_ne_tmp (stem sfx preparedDir : String) :
    preparedDir ++ "/" ++ stem ++ sfx ≠ preparedDir ++ "/" ++ stem ++ "_750w" ++ sfx := by
  intro hcontra
  have hlen := congrArg String.length hcontra
  have h5 : ("_750w" : String).length = 5 := rfl
  simp [String.length_append] at hlen
  omega

/-- C7: `prepare_and_resize_copy` copies the source into the working
directory under its original name; a non-video (non-`.mp4`) suffix is
returned unmodified without invoking the rescale; for `.mp4` the
rescale goes through the sibling temp path, which replaces the copy
only on encode success, and on encode failure the temp path is
deleted, the error is propagated and the copy still holds the original
bytes; paths other than the copy and the temp path are never touched. -/
theorem c7_prepare_and_resize (srcBytes : List Nat) (stem sfx preparedDir : String)
    (env : PrepEnv) (fs0 : FileMap) :
    (lowerStr sfx ≠ ".mp4" →
      prepareAndResizeCopy srcBytes stem sfx preparedDir env fs0 =
        ⟨fsSet fs0 (preparedDir ++ "/" ++ stem ++ sfx) srcBytes, false,
          Except.ok (preparedDir ++ "/" ++ stem ++ sfx)⟩) ∧
    (lowerStr sfx = ".mp4" → ∀ outBytes, env.resizeResult = some outBytes →
      (prepareAndResizeCopy srcBytes stem sfx preparedDir env fs0).fs
          (preparedDir ++ "/" ++ stem ++ sfx) = some outBytes ∧
      (prepareAndResizeCopy srcBytes stem sfx preparedDir env fs0).fs
          (preparedDir ++ "/" ++ stem ++ "_750w" ++ sfx) = none ∧
      (prepareAndResizeCopy srcBytes stem sfx preparedDir env fs0).result =
        Except.ok (preparedDir ++ "/" ++ stem ++ sfx) ∧
      (prepareAndResizeCopy srcBytes stem sfx preparedDir env fs0).resizeInvoked = true) ∧
    (lowerStr sfx = ".mp4" → env.resizeResult = none → env.unlinkTmpOk = true →
      (prepareAndResizeCopy srcBytes stem sfx preparedDir env fs0).fs
          (preparedDir ++ "/" ++ stem ++ sfx) = some srcBytes ∧
      (prepareAndResizeCopy srcBytes stem sfx preparedDir env fs0).fs
          (preparedDir ++ "/" ++ stem ++ "_750w" ++ sfx) = none ∧
      (prepareAndResizeCopy srcBytes stem sfx preparedDir env fs0).result =
        Except.error (PyError.runtimeMsg "ffmpeg error") ∧
      (prepareAndResizeCopy srcBytes stem sfx preparedDir env fs0).resizeInvoked = true) ∧
    (∀ q, q ≠ preparedDir ++ "/" ++ stem ++ sfx →
      q ≠ preparedDir ++ "/" ++ stem ++ "_750w" ++ sfx →
      (prepareAndResizeCopy srcBytes stem sfx preparedDir env fs0).fs q = fs0 q) := by
  have hne := prep_dest_ne_tmp stem sfx preparedDir
  refine ⟨?_, ?_, ?_, ?_⟩
  · intro hmp4
    simp [prepareAndResizeCopy, hmp4]
  · intro hmp4 outBytes hres
    simp [prepareAndResizeCopy, hmp4, hres, fsSet, fsDel, hne]
  · intro hmp4 hres hunlink
    rcases htmp : env.tmpOnFailure with _ | partialBytes <;>
      simp [prepareAndResizeCopy, hmp4, hres, hunlink, htmp, fsSet, fsDel, hne]
  · intro q hq1 hq2
    by_cases hmp4 : lowerStr sfx = ".mp4"
    · rcases hres : env.resizeResult with _ | outBytes
      · rcases htmp : env.tmpOnFailure with _ | partialBytes <;>
          cases hunlink : env.unlinkTmpOk <;>
          simp [prepareAndResizeCopy, hmp4, hres, htmp, hunlink, fsSet, fsDel, hq1, hq2]
      · simp [prepareAndResizeCopy, hmp4, hres, fsSet, fsDel, hq1, hq2]
    · simp [prepareAndResizeCopy, hmp4, fsSet, hq1]

/-- C7 witness: on a concrete failed `.mp4` encode the prepared copy
still holds the original bytes, the temp path is gone and the error is
propagated. -/
theorem c7_prepare_and_resize_witness :
    (prepareAndResizeCopy [1, 2, 3] "v" ".mp4" "prepared_gifs"
        ⟨none, some [9], true⟩ (fun _ => none)).fs "prepared_gifs/v.mp4" = some [1, 2, 3] ∧
    (prepareAndResizeCopy [1, 2, 3] "v" ".mp4" "prepared_gifs"
        ⟨none, some [9], true⟩ (fun _ => none)).fs "prepared_gifs/v_750w.mp4" = none ∧
    (prepareAndResizeCopy [1, 2, 3] "v" ".mp4" "prepared_gifs"
        ⟨none, some [9], true⟩ (fun _ => none)).result =
      Except.error (PyError.runtimeMsg "ffmpeg error") := by
  have h := (c7_prepare_and_resize [1, 2, 3] "v" ".mp4" "prepared_gifs"
      ⟨none, some [9], true⟩ (fun _ => none)).2.2.1 (by decide) rfl rfl
  exact ⟨h.1, h.2.1, h.2.2.1⟩

/-! ### ffprobe resolution (ffmpeg_utils.py lines 97-121)

`FFPROBE_BIN = os.environ.get('FFPROBE_BIN') or shutil.which('ffprobe')
or (os.path.join(os.path.dirname(FFMPEG_BIN), 'ffprobe') if FFMPEG_BIN
and os.path.dirname(FFMPEG_BIN) else None)`, and `get_width_height`
raises the tool-missing RuntimeError exactly when `FFPROBE_BIN` is
falsy.  Python truthiness of an optional string, posixpath `dirname`
and `join` are embedded faithfully. -/

def pyTruthy : Option String → Bool
  | none => false
  | some s => !s.isEmpty

/-- posixpath.dirname: everything up to the last '/', with trailing
slashes stripped unless the head is all slashes. -/
def posixDirname (p : String) : String :=
  let head := (p.data.reverse.dropWhile (fun c => c != '/')).reverse
  if head.isEmpty || head.all (fun c => c == '/') then ⟨head⟩
  else ⟨(head.reverse.dropWhile (fun c => c == '/')).reverse⟩

/-- posixpath.join of two components (a leading '/' in `b` makes it
absolute; a trailing '/' in `a` suppresses the separator). -/
def posixJoin (a b : String) : String :=
  if b.data.head? = some '/' then b
  else if a = "" || a.data.getLast? = some '/' then a ++ b
  else a ++ "/" ++ b

/-- The module-level `FFPROBE_BIN` resolution chain. -/
def resolveFfprobe (envVar which ffmpegBin : Option String) : Option String :=
  if pyTruthy envVar then envVar
  else if pyTruthy which then which
  else
    match ffmpegBin with
    | some fb =>
      if fb ≠ "" ∧ posixDirname fb ≠ "" then some (posixJoin (posixDirname fb) "ffprobe")
      else none
    | none => none

/-- `get_width_height`: raises the tool-missing RuntimeError when
`FFPROBE_BIN` is falsy, otherwise returns the probe result or wraps
the probe failure in a RuntimeError. -/
def getWidthHeight (ffprobeBin : Option String) (probe : Except String (Nat × Nat)) :
    Except PyError (Nat × Nat) :=
  if pyTruthy ffprobeBin = false then .error (.runtimeMissingTool "ffprobe")
  else
    match probe with
    | .ok wh => .ok wh
    | .error m => .error (.runtimeMsg ("ffprobe error: " ++ m))

lemma posixJoin_ffprobe_ne_empty (a : String) : posixJoin a "ffprobe" ≠ "" := by
  unfold posixJoin
  rw [if_neg (by decide)]
  have h7 : ("ffprobe" : String).length = 7 := rfl
  by_cases h : (a = "" || a.data.getLast? = some '/') = true
  · rw [if_pos h]
    intro hcontra
    have hlen := congrArg String.length hcontra
    simp [String.length_append] at hlen
    omega
  · rw [if_neg h]
    intro hcontra
    have hlen := congrArg String.length hcontra
    simp [String.length_append] at hlen
    omega

lemma isEmpty_false_of_ne (s : String) (h : s ≠ "") : s.isEmpty = false := by
  cases hE : s.isEmpty
  · rfl
  · exact absurd ((String.isEmpty_iff s).mp hE) h

lemma resolveFfprobe_truthy (envVar which ffmpegBin : Option String) (s : String)
    (hs : resolveFfprobe envVar which ffmpegBin = some s) : pyTruthy (some s) = true := by
  by_cases h1 : pyTruthy envVar = true
  · simp only [resolveFfprobe, h1, if_true] at hs
    rw [hs] at h1
    exact h1
  · by_cases h2 : pyTruthy which = true
    · simp only [resolveFfprobe, h1, h2, if_true, if_false, Bool.false_eq_true] at hs
      rw [hs] at h2
      exact h2
    · rcases ffmpegBin with _ | fb
      · simp [resolveFfprobe, h1, h2] at hs
      · by_cases h3 : fb = ""
        · simp [resolveFfprobe, h1, h2, h3] at hs
        · by_cases h4 : posixDirname fb = ""
          · simp [resolveFfprobe, h1, h2, h3, h4] at hs
          · simp [resolveFfprobe, h1, h2, h3, h4] at hs
            have hne := posixJoin_ffprobe_ne_empty (posixDirname fb)
            rw [← hs]
            simp [pyTruthy, isEmpty_false_of_ne _ hne]

/-- C10: the ffprobe binary resolution has a third fallback — when the
env var and the PATH lookup both fail and ffmpeg resolved to a path
with a directory component, the probe binary is the sibling `ffprobe`
of the ffmpeg binary's directory — and `get_width_height` fails with
the tool-missing error exactly when the whole resolution chain yields
nothing. -/
theorem c10_ffprobe_resolution (envVar which : Option String) (fb : String)
    (probe : Except String (Nat × Nat)) :
    (pyTruthy envVar = false → pyTruthy which = false → fb ≠ "" → posixDirname fb ≠ "" →
      resolveFfprobe envVar which (some fb) =
        some (posixJoin (posixDirname fb) "ffprobe")) ∧
    (∀ fbo : Option String, resolveFfprobe envVar which fbo = none →
      getWidthHeight (resolveFfprobe envVar which fbo) probe =
        Except.error (PyError.runtimeMissingTool "ffprobe")) ∧
    (∀ fbo : Option String, ∀ s, resolveFfprobe envVar which fbo = some s →
      getWidthHeight (resolveFfprobe envVar which fbo) probe ≠
        Except.error (PyError.runtimeMissingTool "ffprobe")) := by
  refine ⟨?_, ?_, ?_⟩
  · intro h1 h2 h3 h4
    simp [resolveFfprobe, h1, h2, h3, h4]
  · intro fbo hnone
    rw [hnone]
    simp [getWidthHeight, pyTruthy]
  · intro fbo s hsome
    have ht := resolveFfprobe_truthy envVar which fbo s hsome
    rw [hsome]
    cases probe with
    | ok wh => simp [getWidthHeight, ht]
    | error m => simp [getWidthHeight, ht]

/-- C10 witness: with no env override and no PATH hit,
`/usr/bin/ffmpeg` yields the sibling `/usr/bin/ffprobe`, and with all
three resolutions failing `get_width_height` raises the tool-missing
error. -/
theorem c10_ffprobe_resolution_witness :
    resolveFfprobe none none (some "/usr/bin/ffmpeg") =
      some (posixJoin (posixDirname "/usr/bin/ffmpeg") "ffprobe") ∧
    getWidthHeight (resolveFfprobe none none none) (Except.ok (750, 600)) =
      Except.error (PyError.runtimeMissingTool "ffprobe") := by
  have h := c10_ffprobe_resolution none none "/usr/bin/ffmpeg" (Except.ok (750, 600))
  exact ⟨h.1 rfl rfl (by decide) (by decide), h.2.1 none rfl⟩

/-! ### `_maybe_start_prepare_task` notifications (bot.py lines 185-385)

The per-upload pipeline task sends `message.answer` /
`answer_document` calls; `BotEnv` gives the outcome of every external
step and the model returns the messages the submitter is sent, in
order.  Paths not modelled send nothing (`FFMPEG_UTILS_AVAILABLE`
false, a raised availability check, an unavailable slicer, a missing
returned archive), exactly as the code only logs there. -/

/-- The user-facing messages the task can send. -/
inductive BotMsg
  | preparedMsg (name : String)
  | prepErrorMsg
  | sliceErrMsg
  | ffmpegMissingMsg
  | unsupportedMsg
  | cannotDeleteSrcMsg
  | cannotDeletePreparedMsg
  | slicingDoneMsg
  | archiveDoc (name : String)
  | sendFailedMsg
deriving DecidableEq

/-- Oracle outcomes of one pipeline run: module availability, the
`is_ffmpeg_available` check (which the code defends against raising),
the upload's suffix check, preparation, the copy into `sliced_gifs`,
slicer availability, the slicer's outcome (`None` = archive creation
failed), the two post-success deletions, existence of the returned
archive file and the network send. -/
structure BotEnv where
  utilsAvailable : Bool
  ffmpegCheck : Except Unit Bool
  srcIsMp4 : Bool
  prepOk : Bool
  copyOk : Bool
  slicerAvailable : Bool
  sliceResult : Except Unit (Option String)
  delSrcOk : Bool
  delPreparedOk : Bool
  archiveFileExists : Bool
  sendOk : Bool

/-- Shallow embedding of `_maybe_start_prepare_task`: the messages sent
to the submitter, in program order. -/
def maybeStartPrepareTask (vn : String) (env : BotEnv) : List BotMsg :=
  if env.utilsAvailable = false then []
  else
    match env.ffmpegCheck with
    | .error _ => []
    | .ok false => [.ffmpegMissingMsg]
    | .ok true =>
      if env.srcIsMp4 = false then [.unsupportedMsg]
      else if env.prepOk = false then [.prepErrorMsg]
      else
        .preparedMsg vn ::
          (if env.copyOk = false then [.sliceErrMsg]
           else if env.slicerAvailable = false then []
           else
             match env.sliceResult with
             | .error _ => [.sliceErrMsg]
             | .ok archive =>
               (if env.delSrcOk then [] else [.cannotDeleteSrcMsg]) ++
               (if env.delPreparedOk then [] else [.cannotDeletePreparedMsg]) ++
               (match archive with
                | some name =>
                  if env.archiveFileExists then
                    .slicingDoneMsg ::
                      (if env.sendOk then [.archiveDoc name] else [.sendFailedMsg])
                  else []
                | none => []))

/-- Terminal notifications in the sense of the spec: the archive
attachment or a message reporting the run's failure. -/
def isTerminalMsg : BotMsg → Bool
  | .ffmpegMissingMsg => true
  | .unsupportedMsg => true
  | .prepErrorMsg => true
  | .sliceErrMsg => true
  | .archiveDoc _ => true
  | .sendFailedMsg => true
  | _ => false

def terminalCount (vn : String) (env : BotEnv) : Nat :=
  ((maybeStartPrepareTask vn env).filter isTerminalMsg).length

/-- The runs that end with no terminal notification at all: helper
module unavailable, availability check raised, slicer unavailable,
slicing succeeded but the archive was not created (`None` returned),
or the returned archive file is missing on disk. -/
def silentRun (env : BotEnv) : Bool :=
  if env.utilsAvailable = false then true
  else
    match env.ffmpegCheck with
    | .error _ => true
    | .ok false => false
    | .ok true =>
      if env.srcIsMp4 = false then false
      else if env.prepOk = false then false
      else if env.copyOk = false then false
      else if env.slicerAvailable = false then true
      else
        match env.sliceResult with
        | .error _ => false
        | .ok none => true
        | .ok (some _) => env.archiveFileExists = false

/-- C2 counterexample: a run in which slicing succeeds but archive
creation fails (the slicer returns `None`) ends with zero terminal
notifications — the submitter only ever saw the intermediate
"prepared" message — refuting "exactly one terminal notification per
run". -/
theorem c2_notification_counterexample :
    terminalCount "clip.mp4"
      ⟨true, Except.ok true, true, true, true, true, Except.ok none,
        true, true, true, true⟩ = 0 ∧ (0 : Nat) ≠ 1 :=
  ⟨rfl, by decide⟩

/-- C2 (amended): every pipeline run sends at most one terminal
notification, and sends exactly one except on the silent runs — helper
module unavailable, availability check raised, slicer unavailable,
archive creation failed (`None` returned), or returned archive file
missing — which send zero. -/
theorem c2_one_terminal_notification (vn : String) (env : BotEnv) :
    terminalCount vn env = cond (silentRun env) 0 1 := by
  rcases env with ⟨u, chk, mp4, prep, copy, sl, sr, ds, dp, ae, so⟩
  cases u
  · rfl
  · cases chk with
    | error e => rfl
    | ok b =>
      cases b
      · rfl
      · cases mp4
        · rfl
        · cases prep
          · rfl
          · cases copy
            · rfl
            · cases sl
              · rfl
              · cases sr with
                | error e => rfl
                | ok archive =>
                  cases archive with
                  | none => cases ds <;> cases dp <;> rfl
                  | some name =>
                    cases ae
                    · cases ds <;> cases dp <;> rfl
                    · cases so <;> cases ds <;> cases dp <;> rfl

end GifShowcase
